import Mathlib

/-!
Shallow embedding of `src/useCache.tsx` (react-native-media-cache), a
content-addressed media cache hook, together with proofs about the claims of
the specification.

Modelling conventions:
* The Expo filesystem is a partial map from full path strings to file
  metadata (`FS`); `FileSystem.getInfoAsync p` returns the entry at `p`
  (with `exists = false`, modelled as `none`, when absent), and the `uri`
  field it reports for an existing file is the queried path itself (the
  paths the code builds already start from `FileSystem.cacheDirectory`,
  which is a `file://` URI in Expo).
* External collaborators (the SHA-256 digest `Crypto.digestStringAsync`,
  `Linking.parse` scheme extraction, `downloadAsync`, `copyAsync`,
  `deleteAsync`) are supplied by an `Env` oracle: the digest and scheme
  parser are pure functions, and the fallible operations are outcome
  oracles keyed by their arguments, so a theorem quantifying over `Env`
  quantifies over every collaborator behaviour.
* Promise rejection is modelled with `Except String`: a rejected promise is
  `Except.error e`.  A JS `try { return somePromise } catch` does NOT catch
  a rejection of `somePromise` when the `return` carries no `await` — the
  outer promise merely adopts the rejected one — and the embedding of
  `cacheItem` reproduces this faithfully.
* `async-lock`'s `lock.acquire(key, fn).catch(...)` runs `fn` under mutual
  exclusion on `key` and maps any rejection of `fn` to `undefined`.  The
  sequential definitions execute `fn` directly (a single uncontended call);
  the two-caller interleaving machine (`Conf`, `taskStep`, `runSched`)
  models two concurrent `cacheItem` invocations with the lock explicit.
-/

namespace MediaCache

/-- Source `type FileType = "image" | "video"` (useCache.tsx line 7). -/
inductive FileType where
  | image
  | video
deriving DecidableEq, Repr

/-- Source `CacheOptions` (useCache.tsx lines 10–25). -/
structure CacheOptions where
  customName : Option String := none
  fileType : Option FileType := none
  authToken : Option String := none

/-- Metadata of one file in the modelled filesystem, as reported by
`FileSystem.getInfoAsync` for an existing path. -/
structure FileEntry where
  isDirectory : Bool
  modificationTime : Nat
  size : Nat
deriving DecidableEq, Repr

/-- The modelled filesystem: a map from full path string to file metadata;
`none` means the path does not exist. -/
abbrev FS := String → Option FileEntry

/-- Point update of the modelled filesystem. -/
def FS.update (fs : FS) (p : String) (e : Option FileEntry) : FS :=
  fun q => if q = p then e else fs q

/-- The record returned by `getCache` on a hit (useCache.tsx lines 209–213):
`{ uri, modificationTime, size }`. -/
structure CacheEntry where
  uri : String
  modificationTime : Nat
  size : Nat
deriving DecidableEq, Repr

/-- Outcome of one `downloadAsync` call: the promise rejects, resolves with
no result (`undefined`), or resolves with a result after materialising the
destination file (whose metadata the collaborator chooses). -/
inductive DLOutcome where
  | throws (e : String)
  | noResult
  | success (modificationTime size : Nat)
deriving DecidableEq, Repr

/-- Outcome of one `FileSystem.copyAsync` call: the promise rejects, or the
destination file is materialised with the given metadata. -/
inductive CopyOutcome where
  | throws (e : String)
  | success (modificationTime size : Nat)
deriving DecidableEq, Repr

/-- The external collaborators of the core (spec §1): digest primitive,
URL parser, blob store root, and the fallible store/transport operations
as outcome oracles. `digest` models `Crypto.digestStringAsync(SHA256, ·)`;
`scheme` models `Linking.parse(url).scheme`; `deleteOutcome` models
`FileSystem.deleteAsync` called without the `idempotent` option (`some e`
means the delete promise rejects with `e`). -/
structure Env where
  digest : String → String
  cacheDirectory : String
  scheme : String → Option String
  downloadOutcome : String → String → List (String × String) → DLOutcome
  copyOutcome : String → String → CopyOutcome
  deleteOutcome : String → Option String

/-- Source `const cacheDirName = "cache"` (useCache.tsx line 40). -/
def cacheDirName : String := "cache"

/-- The full path `FileSystem.cacheDirectory + cacheDirName + "/" + filename`
used for every cached file (useCache.tsx lines 118, 152, 157, 203). -/
def cachePath (env : Env) (filename : String) : String :=
  env.cacheDirectory ++ cacheDirName ++ "/" ++ filename

/-- Source `APIHeader(token)` (useCache.tsx lines 27–37): always `Accept` and
`Content-Type`; `Authorization: Bearer <token>` added only when `token` is
truthy (`if (token)`), i.e. defined and non-empty. -/
def APIHeader (token : Option String) : List (String × String) :=
  let header := [("Accept", "application/json"),
                 ("Content-Type", "application/json")]
  match token with
  | some t => if t = "" then header else header ++ [("Authorization", "Bearer " ++ t)]
  | none => header

/-- Source `_getFilename(url, fileType)` (useCache.tsx lines 80–91). -/
def _getFilename (env : Env) (url : String) (fileType : Option FileType) : String :=
  let digestUrl := env.digest url
  match fileType with
  | some ft =>
      let fileExt := if ft = FileType.image then "jpg" else "mp4"
      digestUrl ++ "." ++ fileExt
  | none => digestUrl

/-- Source `_isRemoteUrl(url)` (useCache.tsx lines 97–100). -/
def _isRemoteUrl (env : Env) (url : String) : Bool :=
  env.scheme url = some "http" || env.scheme url = some "https"

/-- Source `getCache(name, fileType)` (useCache.tsx lines 200–216): hash `name`,
query the store at the derived path, and on existence return
`{ uri, modificationTime, size }`. -/
def getCache (env : Env) (fs : FS) (name : String) (fileType : Option FileType) :
    Option CacheEntry :=
  let filename := _getFilename env name fileType
  let path := cachePath env filename
  match fs path with
  | some info =>
      some { uri := path
             modificationTime := info.modificationTime
             size := info.size }
  | none => none

/-- Result of the sequential `_cacheRemoteItem`: resolved value, final
filesystem, number of `downloadAsync` invocations. -/
structure RemoteOut where
  result : Option String
  fs : FS
  downloads : Nat

/-- Result of the sequential `_cacheLocalItem`: the promise (which may
reject), final filesystem, number of `copyAsync` invocations. -/
structure LocalOut where
  result : Except String (Option String)
  fs : FS
  copies : Nat

/-- Result of the sequential `cacheItem`: the promise, final filesystem,
and the number of download / copy operations performed. -/
structure RunOut where
  result : Except String (Option String)
  fs : FS
  downloads : Nat
  copies : Nat

/-- Source `_cacheRemoteItem(url, options)` (useCache.tsx lines 107–138), for a
single uncontended call: `lock.acquire(url, fn)` runs `fn`, and the trailing
`.catch` maps any rejection to `undefined`, so the function never rejects.
Inside the lock: re-check `getCache(url, fileType)`; if present return
`undefined`; otherwise download to the path derived from
`customName ?? url` and return `result.uri` (the destination) on success,
`undefined` when `downloadAsync` resolves without a result. -/
def _cacheRemoteItem (env : Env) (fs : FS) (url : String) (options : CacheOptions) :
    RemoteOut :=
  let filename := _getFilename env (options.customName.getD url) options.fileType
  match getCache env fs url options.fileType with
  | some _ => { result := none, fs := fs, downloads := 0 }
  | none =>
      let dest := cachePath env filename
      match env.downloadOutcome url dest (APIHeader options.authToken) with
      | DLOutcome.throws _ => { result := none, fs := fs, downloads := 1 }
      | DLOutcome.noResult => { result := none, fs := fs, downloads := 1 }
      | DLOutcome.success mt sz =>
          { result := some dest
            fs := FS.update fs dest (some ⟨false, mt, sz⟩)
            downloads := 1 }

/-- Source `_cacheLocalItem(url, options)` (useCache.tsx lines 145–167): copy the
source to the path derived from `customName ?? url` (copy, never move), then
call `getCache` with the full destination path as the `name` argument —
`getCache` hashes that path again — and return the found `uri` or
`undefined`.  There is no catch here: a `copyAsync` rejection rejects the
whole promise. -/
def _cacheLocalItem (env : Env) (fs : FS) (url : String) (options : CacheOptions) :
    LocalOut :=
  let filename := _getFilename env (options.customName.getD url) options.fileType
  let dest := cachePath env filename
  match env.copyOutcome url dest with
  | CopyOutcome.throws e => { result := Except.error e, fs := fs, copies := 1 }
  | CopyOutcome.success mt sz =>
      let fs1 := FS.update fs dest (some ⟨false, mt, sz⟩)
      match getCache env fs1 dest options.fileType with
      | some r => { result := Except.ok (some r.uri), fs := fs1, copies := 1 }
      | none => { result := Except.ok none, fs := fs1, copies := 1 }

/-- Source `cacheItem(url, options)` (useCache.tsx lines 174–193): initial
`getCache(url, fileType)` check, cache-hit short-circuit, then dispatch on
`_isRemoteUrl`.  The `try/catch` wraps only the awaited `getCache` and the
synchronous `_isRemoteUrl` (pure in this model, hence the catch is
unreachable); `return _cacheRemoteItem(...)` / `return _cacheLocalItem(...)`
carry no `await`, so the returned promise is adopted outside the catch: a
rejection of `_cacheLocalItem` rejects `cacheItem` itself
(`_cacheRemoteItem` never rejects thanks to its own `.catch`). -/
def cacheItem (env : Env) (fs : FS) (url : String) (options : CacheOptions) :
    RunOut :=
  match getCache env fs url options.fileType with
  | some existingCache =>
      { result := Except.ok (some existingCache.uri)
        fs := fs, downloads := 0, copies := 0 }
  | none =>
      if _isRemoteUrl env url then
        let r := _cacheRemoteItem env fs url options
        { result := Except.ok r.result, fs := r.fs, downloads := r.downloads, copies := 0 }
      else
        let r := _cacheLocalItem env fs url options
        { result := r.result, fs := r.fs, downloads := 0, copies := r.copies }

/-- Source `clearCache()` (useCache.tsx lines 221–223): a single
`FileSystem.deleteAsync(cacheDirectory + cacheDirName)` with no options and
no catch — an error from the delete rejects `clearCache`; on success the
directory and everything beneath it are gone. -/
def clearCache (env : Env) (fs : FS) : Except String Unit × FS :=
  let dir := env.cacheDirectory ++ cacheDirName
  match env.deleteOutcome dir with
  | some e => (Except.error e, fs)
  | none =>
      (Except.ok (),
       fun q => if q == dir || q.startsWith (dir ++ "/") then none else fs q)

/-! Machine model: two-caller interleaving

Two concurrent invocations of `cacheItem url opts` (same arguments) are
modelled as two tasks stepping over shared state.  Each task step is one
span of code between `await` suspension points; read-only awaits inside one
span are folded together (they commute with everything).  The spans, per
the source:

* `start`    — the initial `getCache(url, fileType)` check of `cacheItem`
               and the synchronous classification `_isRemoteUrl`
               (lines 178–188);
* `waitLock` — remote path blocked on `lock.acquire(url, ...)` (line 113);
* `inLock`   — first span of the critical section: the in-lock re-check
               `getCache(url, fileType)` (lines 114–115, 130–132);
* `doDownload` — the `downloadAsync` call, its effect on the store, and the
               lock release on completion (lines 116–129, plus `.catch`);
* `doCopy`   — the unlocked `copyAsync` of `_cacheLocalItem`
               (lines 150–153);
* `afterCopy` — the re-query `getCache(destPath, fileType)` and result
               selection (lines 156–166);
* `done r`   — the `cacheItem` promise settled with `r`
               (`Except.error` = rejected, matching the missing `await`).
-/

/-- Control state of one task running `cacheItem`. -/
inductive TaskState where
  | start
  | waitLock
  | inLock
  | doDownload
  | doCopy
  | afterCopy
  | done (r : Except String (Option String))
deriving Repr

/-- A task holds the `async-lock` key exactly in the critical-section
states. -/
def TaskState.isLocked : TaskState → Bool
  | TaskState.inLock => true
  | TaskState.doDownload => true
  | _ => false

/-- The task is in the local-copy part of `cacheItem`. -/
def TaskState.isLocal : TaskState → Bool
  | TaskState.doCopy => true
  | TaskState.afterCopy => true
  | _ => false

/-- The task's promise is settled. -/
def TaskState.isDone : TaskState → Bool
  | TaskState.done _ => true
  | _ => false

/-- Shared configuration of the two-caller machine: the store, the
`async-lock` state for the single key `url`, both task states, and global
counters of `downloadAsync` / `copyAsync` invocations. -/
structure Conf where
  fs : FS
  lockHeld : Bool
  t : Bool → TaskState
  downloads : Nat
  copies : Nat

/-- One step of a single task: given the shared store and lock state,
produce the new task state, store, lock state, and the number of download /
copy operations performed by the step; `none` when the task cannot step
(settled, or blocked on the lock). -/
def taskStep (env : Env) (url : String) (opts : CacheOptions) (fs : FS)
    (lockHeld : Bool) : TaskState → Option (TaskState × FS × Bool × Nat × Nat)
  | TaskState.start =>
      match getCache env fs url opts.fileType with
      | some e => some (TaskState.done (Except.ok (some e.uri)), fs, lockHeld, 0, 0)
      | none =>
          if _isRemoteUrl env url then
            some (TaskState.waitLock, fs, lockHeld, 0, 0)
          else
            some (TaskState.doCopy, fs, lockHeld, 0, 0)
  | TaskState.waitLock =>
      if lockHeld then none
      else some (TaskState.inLock, fs, true, 0, 0)
  | TaskState.inLock =>
      match getCache env fs url opts.fileType with
      | some _ => some (TaskState.done (Except.ok none), fs, false, 0, 0)
      | none => some (TaskState.doDownload, fs, lockHeld, 0, 0)
  | TaskState.doDownload =>
      let filename := _getFilename env (opts.customName.getD url) opts.fileType
      let dest := cachePath env filename
      match env.downloadOutcome url dest (APIHeader opts.authToken) with
      | DLOutcome.throws _ => some (TaskState.done (Except.ok none), fs, false, 1, 0)
      | DLOutcome.noResult => some (TaskState.done (Except.ok none), fs, false, 1, 0)
      | DLOutcome.success mt sz =>
          some (TaskState.done (Except.ok (some dest)),
                FS.update fs dest (some ⟨false, mt, sz⟩), false, 1, 0)
  | TaskState.doCopy =>
      let filename := _getFilename env (opts.customName.getD url) opts.fileType
      let dest := cachePath env filename
      match env.copyOutcome url dest with
      | CopyOutcome.throws e => some (TaskState.done (Except.error e), fs, lockHeld, 0, 1)
      | CopyOutcome.success mt sz =>
          some (TaskState.afterCopy, FS.update fs dest (some ⟨false, mt, sz⟩), lockHeld, 0, 1)
  | TaskState.afterCopy =>
      let filename := _getFilename env (opts.customName.getD url) opts.fileType
      let dest := cachePath env filename
      match getCache env fs dest opts.fileType with
      | some r => some (TaskState.done (Except.ok (some r.uri)), fs, lockHeld, 0, 0)
      | none => some (TaskState.done (Except.ok none), fs, lockHeld, 0, 0)
  | TaskState.done _ => none

/-- Scheduler step: attempt to step task `i`; a blocked task leaves the
configuration unchanged. -/
def confStep (env : Env) (url : String) (opts : CacheOptions) (c : Conf)
    (i : Bool) : Conf :=
  match taskStep env url opts c.fs c.lockHeld (c.t i) with
  | none => c
  | some (s1, fs1, l1, dD, dC) =>
      { fs := fs1
        lockHeld := l1
        t := fun j => if j = i then s1 else c.t j
        downloads := c.downloads + dD
        copies := c.copies + dC }

/-- Run a schedule (a list of task choices) from a configuration. -/
def runSched (env : Env) (url : String) (opts : CacheOptions) :
    Conf → List Bool → Conf
  | c, [] => c
  | c, i :: rest => runSched env url opts (confStep env url opts c i) rest

/-- Both tasks poised at the start of `cacheItem url opts` over store
`fs`; lock free, no operation performed yet. -/
def initConf (fs : FS) : Conf :=
  { fs := fs
    lockHeld := false
    t := fun _ => TaskState.start
    downloads := 0
    copies := 0 }

/-! Concrete instances used by closed counterexamples and witnesses -/

/-- A small concrete environment: a tagging digest (injective on the inputs
used), cache root `/cd/`, `http://x` the only remote URL, and prescribed
outcomes for download, copy and delete. -/
def testEnv (dl : DLOutcome) (cp : CopyOutcome) (del : Option String) : Env :=
  { digest := fun s => "h(" ++ s ++ ")"
    cacheDirectory := "/cd/"
    scheme := fun s => if s = "http://x" then some "http" else none
    downloadOutcome := fun _ _ _ => dl
    copyOutcome := fun _ _ => cp
    deleteOutcome := fun _ => del }

/-- The empty store. -/
def emptyFS : FS := fun _ => none

/-- Environment whose downloads succeed and whose copies fail. -/
def envDL : Env := testEnv (DLOutcome.success 1 2) (CopyOutcome.throws "boom") none

/-- Environment whose copies succeed and whose downloads resolve without a
result. -/
def envCP : Env := testEnv DLOutcome.noResult (CopyOutcome.success 5 7) none

/-- Store holding exactly one cached entry: the one `getCache` finds for the
name `"u"` with no file type (path `/cd/cache/h(u)`). -/
def fsHit : FS := FS.update emptyFS "/cd/cache/h(u)" (some ⟨false, 3, 4⟩)

/-! Helper lemmas -/

theorem FS.update_self (fs : FS) (p : String) (e : Option FileEntry) :
    FS.update fs p e p = e := by
  simp [FS.update]

theorem FS.update_ne (fs : FS) (p q : String) (e : Option FileEntry)
    (h : q ≠ p) : FS.update fs p e q = fs q := by
  simp [FS.update, h]

theorem getCache_eq_none_iff (env : Env) (fs : FS) (name : String)
    (ft : Option FileType) :
    getCache env fs name ft = none ↔
      fs (cachePath env (_getFilename env name ft)) = none := by
  unfold getCache
  cases h : fs (cachePath env (_getFilename env name ft)) <;> simp [h]

theorem getCache_of_entry (env : Env) (fs : FS) (name : String)
    (ft : Option FileType) (e : FileEntry)
    (h : fs (cachePath env (_getFilename env name ft)) = some e) :
    getCache env fs name ft =
      some ⟨cachePath env (_getFilename env name ft),
            e.modificationTime, e.size⟩ := by
  unfold getCache
  simp [h]

/-- The destination path every write of `_cacheRemoteItem` /
`_cacheLocalItem` targets: the cache path of the filename derived from
`customName ?? url` and `fileType` (useCache.tsx lines 109, 118, 147,
152). -/
def destPath (env : Env) (url : String) (opts : CacheOptions) : String :=
  cachePath env (_getFilename env (opts.customName.getD url) opts.fileType)

theorem local_copy_success (env : Env) (fs : FS) (url : String)
    (opts : CacheOptions) (mt sz : Nat)
    (hcp : env.copyOutcome url (destPath env url opts) =
      CopyOutcome.success mt sz) :
    _cacheLocalItem env fs url opts =
      { result := Except.ok (Option.map CacheEntry.uri
          (getCache env
            (FS.update fs (destPath env url opts) (some ⟨false, mt, sz⟩))
            (destPath env url opts) opts.fileType))
        fs := FS.update fs (destPath env url opts) (some ⟨false, mt, sz⟩)
        copies := 1 } := by
  rw [destPath] at hcp
  unfold _cacheLocalItem
  simp only [hcp, destPath]
  cases hq : getCache env
      (FS.update fs
        (cachePath env (_getFilename env (opts.customName.getD url) opts.fileType))
        (some ⟨false, mt, sz⟩))
      (cachePath env (_getFilename env (opts.customName.getD url) opts.fileType))
      opts.fileType <;> simp [hq]

theorem cacheItem_hit (env : Env) (fs : FS) (url : String) (opts : CacheOptions)
    (e : CacheEntry) (hg : getCache env fs url opts.fileType = some e) :
    cacheItem env fs url opts =
      { result := Except.ok (some e.uri), fs := fs, downloads := 0, copies := 0 } := by
  unfold cacheItem
  simp [hg]

theorem cacheItem_miss_remote (env : Env) (fs : FS) (url : String)
    (opts : CacheOptions)
    (hg : getCache env fs url opts.fileType = none)
    (hr : _isRemoteUrl env url = true) :
    cacheItem env fs url opts =
      { result := Except.ok (_cacheRemoteItem env fs url opts).result
        fs := (_cacheRemoteItem env fs url opts).fs
        downloads := (_cacheRemoteItem env fs url opts).downloads
        copies := 0 } := by
  unfold cacheItem
  simp [hg, hr]

theorem cacheItem_miss_local (env : Env) (fs : FS) (url : String)
    (opts : CacheOptions)
    (hg : getCache env fs url opts.fileType = none)
    (hr : _isRemoteUrl env url = false) :
    cacheItem env fs url opts =
      { result := (_cacheLocalItem env fs url opts).result
        fs := (_cacheLocalItem env fs url opts).fs
        downloads := 0
        copies := (_cacheLocalItem env fs url opts).copies } := by
  unfold cacheItem
  simp [hg, hr]

theorem remote_miss_success (env : Env) (fs : FS) (url : String)
    (opts : CacheOptions) (mt sz : Nat)
    (hg : getCache env fs url opts.fileType = none)
    (hdl : env.downloadOutcome url
        (cachePath env (_getFilename env (opts.customName.getD url) opts.fileType))
        (APIHeader opts.authToken) = DLOutcome.success mt sz) :
    _cacheRemoteItem env fs url opts =
      { result := some (cachePath env
          (_getFilename env (opts.customName.getD url) opts.fileType))
        fs := FS.update fs (cachePath env
          (_getFilename env (opts.customName.getD url) opts.fileType))
          (some ⟨false, mt, sz⟩)
        downloads := 1 } := by
  unfold _cacheRemoteItem
  simp [hg, hdl]

theorem remote_miss_noResult (env : Env) (fs : FS) (url : String)
    (opts : CacheOptions)
    (hg : getCache env fs url opts.fileType = none)
    (hdl : env.downloadOutcome url
        (cachePath env (_getFilename env (opts.customName.getD url) opts.fileType))
        (APIHeader opts.authToken) = DLOutcome.noResult) :
    _cacheRemoteItem env fs url opts =
      { result := none, fs := fs, downloads := 1 } := by
  unfold _cacheRemoteItem
  simp [hg, hdl]

theorem remote_miss_throws (env : Env) (fs : FS) (url : String)
    (opts : CacheOptions) (e : String)
    (hg : getCache env fs url opts.fileType = none)
    (hdl : env.downloadOutcome url
        (cachePath env (_getFilename env (opts.customName.getD url) opts.fileType))
        (APIHeader opts.authToken) = DLOutcome.throws e) :
    _cacheRemoteItem env fs url opts =
      { result := none, fs := fs, downloads := 1 } := by
  unfold _cacheRemoteItem
  simp [hg, hdl]

/-! Invariant for remote deduplication (claim C3) -/

/-- Invariant of the two-caller machine for a remote identifier with no
`customName`, an initially missing entry and a successful download
outcome; `P` is the storage path derived from `(url, fileType)`, which is
both the path each `getCache(url, fileType)` check inspects and, with
`customName` unset, the download destination.  The components:
at most one download; a download has happened iff `P` is populated; a task
about to download has seen `P` empty under the lock, so no download has
happened yet; at most one task holds the lock, and the lock bit is set
while one does; no task is in the local-copy states; a settled task implies
exactly one download has happened. -/
def RemoteInv (P : String) (c : Conf) : Prop :=
  c.downloads ≤ 1 ∧
  (c.downloads = 0 ↔ c.fs P = none) ∧
  (∀ i : Bool, c.t i = TaskState.doDownload → c.downloads = 0) ∧
  (∀ i : Bool, (c.t i).isLocked = true → (c.t (!i)).isLocked = false) ∧
  (∀ i : Bool, (c.t i).isLocked = true → c.lockHeld = true) ∧
  (∀ i : Bool, (c.t i).isLocal = false) ∧
  (∀ i : Bool, (c.t i).isDone = true → c.downloads = 1)

theorem bool_eq_not_of_ne {i j : Bool} (h : j ≠ i) : j = !i := by
  cases i <;> cases j <;> simp_all

theorem remoteInv_confStep (env : Env) (url : String) (opts : CacheOptions)
    (hRemote : _isRemoteUrl env url = true)
    (hCN : opts.customName = none)
    (mt sz : Nat)
    (hDL : env.downloadOutcome url
        (cachePath env (_getFilename env url opts.fileType))
        (APIHeader opts.authToken) = DLOutcome.success mt sz)
    (c : Conf) (i : Bool)
    (hInv : RemoteInv (cachePath env (_getFilename env url opts.fileType)) c) :
    RemoteInv (cachePath env (_getFilename env url opts.fileType))
      (confStep env url opts c i) := by
  obtain ⟨h1, h2, h3, h4, h5, h6, h7⟩ := hInv
  have hfn : opts.customName.getD url = url := by rw [hCN]; rfl
  cases hs : c.t i with
  | start =>
      cases hg : getCache env c.fs url opts.fileType with
      | some e =>
          have hfsP : c.fs (cachePath env (_getFilename env url opts.fileType)) ≠ none := by
            intro hn
            rw [(getCache_eq_none_iff env c.fs url opts.fileType).mpr hn] at hg
            exact Option.noConfusion hg
          have hd1 : c.downloads = 1 := by
            have hd0 : c.downloads ≠ 0 := fun h0 => hfsP (h2.mp h0)
            omega
          have hstep : confStep env url opts c i =
              { fs := c.fs, lockHeld := c.lockHeld
                t := fun j => if j = i then
                       TaskState.done (Except.ok (some e.uri)) else c.t j
                downloads := c.downloads, copies := c.copies } := by
            simp [confStep, hs, taskStep, hg]
          rw [hstep]
          refine ⟨h1, h2, ?_, ?_, ?_, ?_, ?_⟩
          · intro j hj
            by_cases hji : j = i
            · simp [hji] at hj
            · simp [hji] at hj
              exact h3 j hj
          · intro j hj
            by_cases hji : j = i
            · simp [hji, TaskState.isLocked] at hj
            · have hji2 : (!j) = i := by
                rw [bool_eq_not_of_ne hji, Bool.not_not]
              simp [hji2, TaskState.isLocked]
          · intro j hj
            by_cases hji : j = i
            · simp [hji, TaskState.isLocked] at hj
            · simp [hji] at hj
              exact h5 j hj
          · intro j
            by_cases hji : j = i
            · simp [hji, TaskState.isLocal]
            · simp [hji]
              exact h6 j
          · intro j hj
            exact hd1
      | none =>
          have hstep : confStep env url opts c i =
              { fs := c.fs, lockHeld := c.lockHeld
                t := fun j => if j = i then TaskState.waitLock else c.t j
                downloads := c.downloads, copies := c.copies } := by
            simp [confStep, hs, taskStep, hg, hRemote]
          rw [hstep]
          refine ⟨h1, h2, ?_, ?_, ?_, ?_, ?_⟩
          · intro j hj
            by_cases hji : j = i
            · simp [hji] at hj
            · simp [hji] at hj
              exact h3 j hj
          · intro j hj
            by_cases hji : j = i
            · simp [hji, TaskState.isLocked] at hj
            · have hji2 : (!j) = i := by
                rw [bool_eq_not_of_ne hji, Bool.not_not]
              simp [hji2, TaskState.isLocked]
          · intro j hj
            by_cases hji : j = i
            · simp [hji, TaskState.isLocked] at hj
            · simp [hji] at hj
              exact h5 j hj
          · intro j
            by_cases hji : j = i
            · simp [hji, TaskState.isLocal]
            · simp [hji]
              exact h6 j
          · intro j hj
            by_cases hji : j = i
            · simp [hji, TaskState.isDone] at hj
            · simp [hji] at hj
              exact h7 j hj
  | waitLock =>
      cases hl : c.lockHeld with
      | true =>
          have hstep : confStep env url opts c i = c := by
            simp [confStep, hs, taskStep, hl]
          rw [hstep]
          exact ⟨h1, h2, h3, h4, h5, h6, h7⟩
      | false =>
          have hNoLock : ∀ j : Bool, (c.t j).isLocked = false := by
            intro j
            cases hLj : (c.t j).isLocked with
            | false => rfl
            | true => rw [h5 j hLj] at hl; exact Bool.noConfusion hl
          have hstep : confStep env url opts c i =
              { fs := c.fs, lockHeld := true
                t := fun j => if j = i then TaskState.inLock else c.t j
                downloads := c.downloads, copies := c.copies } := by
            simp [confStep, hs, taskStep, hl]
          rw [hstep]
          refine ⟨h1, h2, ?_, ?_, ?_, ?_, ?_⟩
          · intro j hj
            by_cases hji : j = i
            · simp [hji] at hj
            · simp [hji] at hj
              exact h3 j hj
          · intro j hj
            by_cases hji : j = i
            · have hni : (!j) ≠ i := by
                rw [hji]; cases i <;> simp
              simp [hni]
              exact hNoLock (!j)
            · simp [hji] at hj
              simp [hNoLock j] at hj
          · intro j hj
            rfl
          · intro j
            by_cases hji : j = i
            · simp [hji, TaskState.isLocal]
            · simp [hji]
              exact h6 j
          · intro j hj
            by_cases hji : j = i
            · simp [hji, TaskState.isDone] at hj
            · simp [hji] at hj
              exact h7 j hj
  | inLock =>
      have hLockedI : (c.t i).isLocked = true := by rw [hs]; rfl
      have hOther : (c.t (!i)).isLocked = false := h4 i hLockedI
      cases hg : getCache env c.fs url opts.fileType with
      | some e =>
          have hfsP : c.fs (cachePath env (_getFilename env url opts.fileType)) ≠ none := by
            intro hn
            rw [(getCache_eq_none_iff env c.fs url opts.fileType).mpr hn] at hg
            exact Option.noConfusion hg
          have hd1 : c.downloads = 1 := by
            have hd0 : c.downloads ≠ 0 := fun h0 => hfsP (h2.mp h0)
            omega
          have hstep : confStep env url opts c i =
              { fs := c.fs, lockHeld := false
                t := fun j => if j = i then
                       TaskState.done (Except.ok none) else c.t j
                downloads := c.downloads, copies := c.copies } := by
            simp [confStep, hs, taskStep, hg]
          rw [hstep]
          refine ⟨h1, h2, ?_, ?_, ?_, ?_, ?_⟩
          · intro j hj
            by_cases hji : j = i
            · simp [hji] at hj
            · simp [hji] at hj
              exact h3 j hj
          · intro j hj
            by_cases hji : j = i
            · simp [hji, TaskState.isLocked] at hj
            · simp [hji] at hj
              rw [bool_eq_not_of_ne hji] at hj
              simp [hOther] at hj
          · intro j hj
            by_cases hji : j = i
            · simp [hji, TaskState.isLocked] at hj
            · simp [hji] at hj
              rw [bool_eq_not_of_ne hji] at hj
              simp [hOther] at hj
          · intro j
            by_cases hji : j = i
            · simp [hji, TaskState.isLocal]
            · simp [hji]
              exact h6 j
          · intro j hj
            exact hd1
      | none =>
          have hd0 : c.downloads = 0 :=
            h2.mpr ((getCache_eq_none_iff env c.fs url opts.fileType).mp hg)
          have hstep : confStep env url opts c i =
              { fs := c.fs, lockHeld := c.lockHeld
                t := fun j => if j = i then TaskState.doDownload else c.t j
                downloads := c.downloads, copies := c.copies } := by
            simp [confStep, hs, taskStep, hg]
          rw [hstep]
          refine ⟨h1, h2, ?_, ?_, ?_, ?_, ?_⟩
          · intro j hj
            exact hd0
          · intro j hj
            by_cases hji : j = i
            · have hni : (!j) ≠ i := by
                rw [hji]; cases i <;> simp
              simp [hni]
              rw [hji]
              exact hOther
            · simp [hji] at hj
              rw [bool_eq_not_of_ne hji] at hj
              simp [hOther] at hj
          · intro j hj
            exact h5 i hLockedI
          · intro j
            by_cases hji : j = i
            · simp [hji, TaskState.isLocal]
            · simp [hji]
              exact h6 j
          · intro j hj
            by_cases hji : j = i
            · simp [hji, TaskState.isDone] at hj
            · simp [hji] at hj
              exact h7 j hj
  | doDownload =>
      have hLockedI : (c.t i).isLocked = true := by rw [hs]; rfl
      have hOther : (c.t (!i)).isLocked = false := h4 i hLockedI
      have hd0 : c.downloads = 0 := h3 i hs
      have hstep : confStep env url opts c i =
          { fs := FS.update c.fs
              (cachePath env (_getFilename env url opts.fileType))
              (some ⟨false, mt, sz⟩)
            lockHeld := false
            t := fun j => if j = i then
                   TaskState.done (Except.ok (some
                     (cachePath env (_getFilename env url opts.fileType))))
                 else c.t j
            downloads := c.downloads + 1, copies := c.copies } := by
        simp [confStep, hs, taskStep, hfn, hDL]
      rw [hstep]
      refine ⟨?_, ?_, ?_, ?_, ?_, ?_, ?_⟩
      · show c.downloads + 1 ≤ 1
        omega
      · constructor
        · intro h0
          have h0' : c.downloads + 1 = 0 := h0
          exact absurd h0' (by omega)
        · intro hn
          have hn' : FS.update c.fs
              (cachePath env (_getFilename env url opts.fileType))
              (some ⟨false, mt, sz⟩)
              (cachePath env (_getFilename env url opts.fileType)) = none := hn
          rw [FS.update_self] at hn'
          exact Option.noConfusion hn'
      · intro j hj
        by_cases hji : j = i
        · simp [hji] at hj
        · simp [hji] at hj
          rw [bool_eq_not_of_ne hji] at hj
          have hL : (c.t (!i)).isLocked = true := by rw [hj]; rfl
          simp [hOther] at hL
      · intro j hj
        by_cases hji : j = i
        · simp [hji, TaskState.isLocked] at hj
        · simp [hji] at hj
          rw [bool_eq_not_of_ne hji] at hj
          simp [hOther] at hj
      · intro j hj
        by_cases hji : j = i
        · simp [hji, TaskState.isLocked] at hj
        · simp [hji] at hj
          rw [bool_eq_not_of_ne hji] at hj
          simp [hOther] at hj
      · intro j
        by_cases hji : j = i
        · simp [hji, TaskState.isLocal]
        · simp [hji]
          exact h6 j
      · intro j hj
        show c.downloads + 1 = 1
        omega
  | doCopy =>
      have hL := h6 i
      rw [hs] at hL
      simp [TaskState.isLocal] at hL
  | afterCopy =>
      have hL := h6 i
      rw [hs] at hL
      simp [TaskState.isLocal] at hL
  | done r =>
      have hstep : confStep env url opts c i = c := by
        simp [confStep, hs, taskStep]
      rw [hstep]
      exact ⟨h1, h2, h3, h4, h5, h6, h7⟩

theorem remoteInv_runSched (env : Env) (url : String) (opts : CacheOptions)
    (hRemote : _isRemoteUrl env url = true)
    (hCN : opts.customName = none)
    (mt sz : Nat)
    (hDL : env.downloadOutcome url
        (cachePath env (_getFilename env url opts.fileType))
        (APIHeader opts.authToken) = DLOutcome.success mt sz)
    (sched : List Bool) (c : Conf)
    (hInv : RemoteInv (cachePath env (_getFilename env url opts.fileType)) c) :
    RemoteInv (cachePath env (_getFilename env url opts.fileType))
      (runSched env url opts c sched) := by
  induction sched generalizing c with
  | nil => exact hInv
  | cons i rest ih =>
      exact ih (confStep env url opts c i)
        (remoteInv_confStep env url opts hRemote hCN mt sz hDL c i hInv)

/-! Claim theorems -/

/-- Claim C7: for every name and optional file type, the derived storage
filename is the digest string of the name (`Crypto.digestStringAsync` with
SHA-256, modelled by `Env.digest`) suffixed with `.jpg` for `image`, `.mp4`
for `video`, and with no extension when the file type is absent; since
`_getFilename` is a pure function of `(name, fileType)`, identical pairs
always yield identical filenames. -/
theorem claim_C7_thm (env : Env) (name : String) :
    _getFilename env name (some FileType.image) = env.digest name ++ ".jpg" ∧
    _getFilename env name (some FileType.video) = env.digest name ++ ".mp4" ∧
    _getFilename env name none = env.digest name := by
  refine ⟨?_, ?_, rfl⟩ <;>
    · show env.digest name ++ "." ++ _ = _
      rw [String.append_assoc]
      rfl

/-- Claim C10, counterexample: `authToken` provided as the empty string is a
provided token, yet `APIHeader` (JS truthiness check `if (token)`) emits no
`Authorization` header — the produced header list is exactly the two base
headers.  This falsifies "Authorization is included if and only if
`options.authToken` is provided". -/
theorem claim_C10_counterexample :
    APIHeader (some "") =
      [("Accept", "application/json"), ("Content-Type", "application/json")] ∧
    (some "" : Option String) ≠ none := by
  exact ⟨rfl, by decide⟩

/-- Claim C10, amended: every produced header list contains
`Accept: application/json` and `Content-Type: application/json`, and an
`Authorization` header is present if and only if `authToken` is provided
and non-empty, in which case it is `Bearer <token>`. -/
theorem claim_C10_amended (token : Option String) :
    ("Accept", "application/json") ∈ APIHeader token ∧
    ("Content-Type", "application/json") ∈ APIHeader token ∧
    ((∃ v, ("Authorization", v) ∈ APIHeader token) ↔
       ∃ t, token = some t ∧ t ≠ "") ∧
    (∀ t : String, token = some t → t ≠ "" →
       ("Authorization", "Bearer " ++ t) ∈ APIHeader token) := by
  match token with
  | none =>
      refine ⟨by simp [APIHeader], by simp [APIHeader], ?_, by simp⟩
      simp [APIHeader]
  | some t =>
      by_cases ht : t = ""
      · subst ht
        refine ⟨by simp [APIHeader], by simp [APIHeader], ?_, by simp⟩
        simp [APIHeader]
      · refine ⟨by simp [APIHeader, ht], by simp [APIHeader, ht], ?_, ?_⟩
        · constructor
          · intro _; exact ⟨t, rfl, ht⟩
          · intro _; exact ⟨"Bearer " ++ t, by simp [APIHeader, ht]⟩
        · intro s hs hs'
          cases hs
          simp [APIHeader, ht]

/-- Claim C10, witness: with the non-empty token `"tok"`, the amended
theorem yields the concrete `Authorization: Bearer tok` header. -/
theorem claim_C10_witness :
    ("Authorization", "Bearer " ++ "tok") ∈ APIHeader (some "tok") :=
  (claim_C10_amended (some "tok")).2.2.2 "tok" rfl (by decide)

/-- Claim C8, counterexample: the core calls `FileSystem.deleteAsync`
without the `idempotent` option and without any catch, so when the delete
collaborator reports an error — as Expo's default `deleteAsync` does for an
absent path — `clearCache` rejects even though the cache directory is
absent.  Here the cache namespace directory `/cd/cache` does not exist, the
delete reports `E_NOT_FOUND`, and `clearCache` propagates it. -/
theorem claim_C8_counterexample :
    emptyFS "/cd/cache" = none ∧
    (clearCache (testEnv DLOutcome.noResult (CopyOutcome.throws "e")
        (some "E_NOT_FOUND")) emptyFS).1 = Except.error "E_NOT_FOUND" := by
  exact ⟨rfl, rfl⟩

/-- Claim C8, amended: `clearCache` completes without raising exactly when
the underlying delete operation reports no error; the core does not treat a
delete error as success (it propagates it), so tolerance of an absent cache
directory is not guaranteed by the core. -/
theorem claim_C8_amended (env : Env) (fs : FS) :
    (clearCache env fs).1 = Except.ok () ↔
      env.deleteOutcome (env.cacheDirectory ++ cacheDirName) = none := by
  unfold clearCache
  cases h : env.deleteOutcome (env.cacheDirectory ++ cacheDirName) <;> simp [h]

/-- Claim C8, witness: in an environment whose delete succeeds, the amended
theorem yields that `clearCache` completes without raising. -/
theorem claim_C8_witness :
    (clearCache envDL emptyFS).1 = Except.ok () :=
  (claim_C8_amended envDL emptyFS).mpr rfl

/-- Claim C2 is right and the code is wrong (code bug): the local-copy path
can reject to the caller.  `_cacheLocalItem` has no error handling around
`FileSystem.copyAsync`, and `cacheItem` executes
`return _cacheLocalItem(url, options)` inside its `try` block without
`await`, so the `catch` never sees the rejection — the returned promise is
merely adopted.  On the failing input `cacheItem("/src", {})` with the copy
collaborator rejecting (e.g. unreadable source), `cacheItem`'s promise
rejects with the copy error instead of resolving to `undefined`. -/
theorem claim_C2_code_bug :
    (cacheItem (testEnv DLOutcome.noResult (CopyOutcome.throws "ENOENT") none)
        emptyFS "/src" {}).result = Except.error "ENOENT" := by
  exact rfl

/-- Claim C5: if the in-lock re-check of the remote-fetch procedure finds a
present entry, `_cacheRemoteItem` returns absent (`undefined`) rather than
the existing entry's URI, performs no download, and leaves the store
unchanged. -/
theorem claim_C5_thm (env : Env) (fs : FS) (url : String) (opts : CacheOptions)
    (e : CacheEntry) (h : getCache env fs url opts.fileType = some e) :
    (_cacheRemoteItem env fs url opts).result = none ∧
    (_cacheRemoteItem env fs url opts).downloads = 0 ∧
    (_cacheRemoteItem env fs url opts).fs = fs := by
  unfold _cacheRemoteItem
  simp [h]

/-- Claim C5, witness: a concrete store holding the entry for `"u"`; the
re-check hits, and the procedure returns absent with zero downloads. -/
theorem claim_C5_witness :
    (_cacheRemoteItem envDL fsHit "u" {}).result = none ∧
    (_cacheRemoteItem envDL fsHit "u" {}).downloads = 0 ∧
    (_cacheRemoteItem envDL fsHit "u" {}).fs = fsHit :=
  claim_C5_thm envDL fsHit "u" {} ⟨"/cd/cache/h(u)", 3, 4⟩ rfl

/-- Claim C6: when `getCache(id, t)` returns a present entry,
`cacheItem(id, {fileType: t})` returns that entry's URI, performs no
download and no copy, and leaves the store unchanged. -/
theorem claim_C6_thm (env : Env) (fs : FS) (url : String) (t : Option FileType)
    (e : CacheEntry) (h : getCache env fs url t = some e) :
    cacheItem env fs url { fileType := t } =
      { result := Except.ok (some e.uri), fs := fs, downloads := 0, copies := 0 } := by
  unfold cacheItem
  simp [h]

/-- Claim C6, witness: on the concrete store holding the entry for `"u"`,
`cacheItem` returns its URI with no operation performed. -/
theorem claim_C6_witness :
    cacheItem envDL fsHit "u" { fileType := none } =
      { result := Except.ok (some "/cd/cache/h(u)"), fs := fsHit,
        downloads := 0, copies := 0 } :=
  claim_C6_thm envDL fsHit "u" none ⟨"/cd/cache/h(u)", 3, 4⟩ rfl

/-- Claim C1, counterexample: a successful `cacheItem` with a `customName`
whose digest differs from the identifier's digest returns the URI of the
`customName`-derived path, but `getCache(id, fileType)` on the resulting
store looks at the identifier-derived path and finds nothing.  Concretely:
`cacheItem("http://x", {customName: "c"})` downloads to `/cd/cache/h(c)`
and returns that URI, while `getCache("http://x", none)` on the new store
returns absent. -/
theorem claim_C1_counterexample :
    (cacheItem envDL emptyFS "http://x" { customName := some "c" }).result =
      Except.ok (some "/cd/cache/h(c)") ∧
    getCache envDL
      (cacheItem envDL emptyFS "http://x" { customName := some "c" }).fs
      "http://x" none = none := by
  exact ⟨rfl, rfl⟩

/-- Claim C1, amended: the round trip holds for the calls the write path
and the look-up path agree on — when `options.customName` is unset and the
call either hits the cache or takes the remote path.  (The counterexample
forces excluding `customName`, which diverts the write to a different path
than `getCache(id, ·)` inspects; the local-copy path must also be excluded
because its return value is produced by re-hashing the destination path.)
If such a `cacheItem(id, opts)` completes successfully returning URI `u`,
then `getCache(id, opts.fileType)` on the resulting store returns a present
entry whose `uri` equals `u`. -/
theorem claim_C1_amended (env : Env) (fs : FS) (url : String)
    (opts : CacheOptions) (u : String)
    (hCN : opts.customName = none)
    (hPath : getCache env fs url opts.fileType ≠ none ∨ _isRemoteUrl env url = true)
    (hRes : (cacheItem env fs url opts).result = Except.ok (some u)) :
    ∃ e : CacheEntry,
      getCache env (cacheItem env fs url opts).fs url opts.fileType = some e ∧
      e.uri = u := by
  cases hg : getCache env fs url opts.fileType with
  | some e0 =>
      rw [cacheItem_hit env fs url opts e0 hg] at hRes ⊢
      refine ⟨e0, hg, ?_⟩
      simpa using hRes
  | none =>
      have hRemote : _isRemoteUrl env url = true := by
        rcases hPath with h | h
        · exact absurd hg h
        · exact h
      have hfn : opts.customName.getD url = url := by rw [hCN]; rfl
      rw [cacheItem_miss_remote env fs url opts hg hRemote] at hRes ⊢
      cases hdl : env.downloadOutcome url
          (cachePath env (_getFilename env (opts.customName.getD url) opts.fileType))
          (APIHeader opts.authToken) with
      | throws e =>
          rw [remote_miss_throws env fs url opts e hg hdl] at hRes
          simp at hRes
      | noResult =>
          rw [remote_miss_noResult env fs url opts hg hdl] at hRes
          simp at hRes
      | success mt sz =>
          rw [remote_miss_success env fs url opts mt sz hg hdl] at hRes ⊢
          rw [hfn] at hRes ⊢
          refine ⟨⟨cachePath env (_getFilename env url opts.fileType), mt, sz⟩, ?_, ?_⟩
          · exact getCache_of_entry env _ url opts.fileType ⟨false, mt, sz⟩
              (by simp [FS.update])
          · simpa using hRes

/-- Claim C1, witness: the cache-hit case of the amended theorem at the
concrete store holding the entry for `"u"`. -/
theorem claim_C1_witness :
    ∃ e : CacheEntry,
      getCache envDL (cacheItem envDL fsHit "u" {}).fs "u" none = some e ∧
      e.uri = "/cd/cache/h(u)" :=
  claim_C1_amended envDL fsHit "u" {} "/cd/cache/h(u)" rfl
    (Or.inl (by decide)) rfl

/-- Claim C4, counterexample: `cacheItem("/src", {})` with a copy that
succeeds materialises the destination file `/cd/cache/h(/src)`, yet returns
absent — because the re-query passes the full destination path to
`getCache`, which hashes it again and inspects
`/cd/cache/h(/cd/cache/h(/src))`, where nothing exists.  This falsifies
"after a copy that succeeds in materializing the destination file, the
returned value is that destination file's URI". -/
theorem claim_C4_counterexample :
    (cacheItem envCP emptyFS "/src" {}).fs "/cd/cache/h(/src)" =
      some ⟨false, 5, 7⟩ ∧
    (cacheItem envCP emptyFS "/src" {}).result = Except.ok none := by
  exact ⟨rfl, rfl⟩

/-- Claim C4, amended: for a local identifier on a cache miss with a
successful copy, `cacheItem` copies the source into the derived storage
path without touching any other path (copy, never move), and returns the
result of querying `getCache` with the destination path as the name — a
query that re-hashes the destination path, so it yields that re-hashed
entry's URI when present and absent otherwise (rather than the destination
file's URI). -/
theorem claim_C4_amended (env : Env) (fs : FS) (url : String)
    (opts : CacheOptions) (mt sz : Nat)
    (hr : _isRemoteUrl env url = false)
    (hg : getCache env fs url opts.fileType = none)
    (hcp : env.copyOutcome url (destPath env url opts) =
      CopyOutcome.success mt sz) :
    (cacheItem env fs url opts).fs (destPath env url opts) =
      some ⟨false, mt, sz⟩ ∧
    (∀ q, q ≠ destPath env url opts → (cacheItem env fs url opts).fs q = fs q) ∧
    (cacheItem env fs url opts).result =
      Except.ok (Option.map CacheEntry.uri
        (getCache env (cacheItem env fs url opts).fs
          (destPath env url opts) opts.fileType)) ∧
    (cacheItem env fs url opts).downloads = 0 ∧
    (cacheItem env fs url opts).copies = 1 := by
  rw [cacheItem_miss_local env fs url opts hg hr,
      local_copy_success env fs url opts mt sz hcp]
  refine ⟨?_, ?_, rfl, rfl, rfl⟩
  · exact FS.update_self fs _ _
  · intro q hq
    exact FS.update_ne fs _ q _ hq

/-- Claim C4, witness: the amended theorem instantiated at the concrete
local call `cacheItem("/src", {})` with a copy succeeding with metadata
`(5, 7)`. -/
theorem claim_C4_witness :
    (cacheItem envCP emptyFS "/src" {}).fs (destPath envCP "/src" {}) =
      some ⟨false, 5, 7⟩ ∧
    (cacheItem envCP emptyFS "/src" {}).result =
      Except.ok (Option.map CacheEntry.uri
        (getCache envCP (cacheItem envCP emptyFS "/src" {}).fs
          (destPath envCP "/src" {}) none)) :=
  ⟨(claim_C4_amended envCP emptyFS "/src" {} 5 7 rfl rfl rfl).1,
   (claim_C4_amended envCP emptyFS "/src" {} 5 7 rfl rfl rfl).2.2.1⟩

/-- Claim C9: with a `customName` whose derived path differs from the
identifier's derived path, both the pre-lock check of `cacheItem` and the
in-lock re-check of `_cacheRemoteItem` query the path derived from `url`,
while the download writes the path derived from `customName`; hence a
second identical call still misses both checks and downloads again,
returning the same URI. -/
theorem claim_C9_thm (env : Env) (fs : FS) (url cn : String)
    (opts : CacheOptions) (mt sz : Nat)
    (hCN : opts.customName = some cn)
    (hRemote : _isRemoteUrl env url = true)
    (hNe : cachePath env (_getFilename env cn opts.fileType) ≠
           cachePath env (_getFilename env url opts.fileType))
    (hMiss : fs (cachePath env (_getFilename env url opts.fileType)) = none)
    (hDL : env.downloadOutcome url
        (cachePath env (_getFilename env cn opts.fileType))
        (APIHeader opts.authToken) = DLOutcome.success mt sz) :
    (cacheItem env fs url opts).downloads = 1 ∧
    (cacheItem env fs url opts).result =
      Except.ok (some (cachePath env (_getFilename env cn opts.fileType))) ∧
    (cacheItem env (cacheItem env fs url opts).fs url opts).downloads = 1 ∧
    (cacheItem env (cacheItem env fs url opts).fs url opts).result =
      Except.ok (some (cachePath env (_getFilename env cn opts.fileType))) := by
  have hfn : opts.customName.getD url = cn := by rw [hCN]; rfl
  have hDL' : env.downloadOutcome url
      (cachePath env (_getFilename env (opts.customName.getD url) opts.fileType))
      (APIHeader opts.authToken) = DLOutcome.success mt sz := by
    rw [hfn]; exact hDL
  have hg1 : getCache env fs url opts.fileType = none :=
    (getCache_eq_none_iff env fs url opts.fileType).mpr hMiss
  rw [cacheItem_miss_remote env fs url opts hg1 hRemote,
      remote_miss_success env fs url opts mt sz hg1 hDL']
  have hMiss2 : FS.update fs
      (cachePath env (_getFilename env (opts.customName.getD url) opts.fileType))
      (some ⟨false, mt, sz⟩)
      (cachePath env (_getFilename env url opts.fileType)) = none := by
    rw [FS.update_ne]
    · exact hMiss
    · rw [hfn]; exact fun h => hNe h.symm
  have hg2 : getCache env
      (FS.update fs
        (cachePath env (_getFilename env (opts.customName.getD url) opts.fileType))
        (some ⟨false, mt, sz⟩)) url opts.fileType = none :=
    (getCache_eq_none_iff env _ url opts.fileType).mpr hMiss2
  rw [cacheItem_miss_remote env _ url opts hg2 hRemote,
      remote_miss_success env _ url opts mt sz hg2 hDL']
  rw [hfn]
  exact ⟨rfl, rfl, rfl, rfl⟩

/-- Claim C9, witness: `cacheItem("http://x", {customName: "c"})` twice on
the concrete environment — each call downloads once and returns the
`customName`-derived URI. -/
theorem claim_C9_witness :
    (cacheItem envDL emptyFS "http://x" { customName := some "c" }).downloads = 1 ∧
    (cacheItem envDL emptyFS "http://x" { customName := some "c" }).result =
      Except.ok (some "/cd/cache/h(c)") ∧
    (cacheItem envDL
      (cacheItem envDL emptyFS "http://x" { customName := some "c" }).fs
      "http://x" { customName := some "c" }).downloads = 1 ∧
    (cacheItem envDL
      (cacheItem envDL emptyFS "http://x" { customName := some "c" }).fs
      "http://x" { customName := some "c" }).result =
      Except.ok (some "/cd/cache/h(c)") :=
  claim_C9_thm envDL emptyFS "http://x" "c" { customName := some "c" } 1 2
    rfl (by decide) (by decide) rfl rfl

/-- Claim C3, counterexample: the local-copy path is not deduplicated.  Two
concurrent `cacheItem("/src", {})` calls, interleaved so that both pass the
initial existence check before either copies (`_cacheLocalItem` takes no
lock and re-checks nothing), both perform the copy: the run completes with
both tasks settled and two copy operations against the store.  This
falsifies "exactly one underlying fetch/copy operation … for both the
remote-download path and the local-copy path". -/
theorem claim_C3_counterexample :
    (runSched envCP "/src" {} (initConf emptyFS)
      [true, false, true, true, false, false]).copies = 2 ∧
    ((runSched envCP "/src" {} (initConf emptyFS)
      [true, false, true, true, false, false]).t true).isDone = true ∧
    ((runSched envCP "/src" {} (initConf emptyFS)
      [true, false, true, true, false, false]).t false).isDone = true := by
  exact ⟨rfl, rfl, rfl⟩

/-- Claim C3, amended: the deduplication holds for the remote-download path
when `customName` is unset and the download succeeds — under every
interleaving of two concurrent `cacheItem` calls for the same not-yet-cached
remote identifier, at most one download is performed, and exactly one when
both calls complete.  (The local-copy path, which takes no lock, is not
deduplicated — see the counterexample.) -/
theorem claim_C3_amended (env : Env) (url : String) (opts : CacheOptions)
    (fs : FS) (mt sz : Nat)
    (hRemote : _isRemoteUrl env url = true)
    (hCN : opts.customName = none)
    (hDL : env.downloadOutcome url
        (cachePath env (_getFilename env url opts.fileType))
        (APIHeader opts.authToken) = DLOutcome.success mt sz)
    (hMiss : fs (cachePath env (_getFilename env url opts.fileType)) = none)
    (sched : List Bool) :
    (runSched env url opts (initConf fs) sched).downloads ≤ 1 ∧
    (((runSched env url opts (initConf fs) sched).t true).isDone = true →
     ((runSched env url opts (initConf fs) sched).t false).isDone = true →
     (runSched env url opts (initConf fs) sched).downloads = 1) := by
  have hInit : RemoteInv (cachePath env (_getFilename env url opts.fileType))
      (initConf fs) := by
    refine ⟨by simp [initConf], by simp [initConf, hMiss], ?_, ?_, ?_, ?_, ?_⟩ <;>
      intro j <;>
        simp [initConf, TaskState.isLocked, TaskState.isLocal, TaskState.isDone]
  obtain ⟨h1, _, _, _, _, _, h7⟩ :=
    remoteInv_runSched env url opts hRemote hCN mt sz hDL sched (initConf fs) hInit
  exact ⟨h1, fun hd _ => h7 true hd⟩

/-- Claim C3, witness: a concrete interleaving in which the first caller
downloads inside the lock and the second then observes the populated cache:
both settle with exactly one download. -/
theorem claim_C3_witness :
    (runSched envDL "http://x" {} (initConf emptyFS)
      [true, true, true, true, false]).downloads ≤ 1 ∧
    (((runSched envDL "http://x" {} (initConf emptyFS)
      [true, true, true, true, false]).t true).isDone = true →
     ((runSched envDL "http://x" {} (initConf emptyFS)
      [true, true, true, true, false]).t false).isDone = true →
     (runSched envDL "http://x" {} (initConf emptyFS)
      [true, true, true, true, false]).downloads = 1) :=
  claim_C3_amended envDL "http://x" {} emptyFS 1 2 (by decide) rfl rfl rfl
    [true, true, true, true, false]

end MediaCache
